import Mathlib

/-!
Verification of the page-selection language and page-transformation
operations of the n8n-nodes-pdf-tools repository.

The JavaScript/TypeScript sources are shallowly embedded:
* JS numbers arising in the parsing code are integers or `NaN`; they are
  modelled as `Option Int` with `none` playing the role of `NaN`
  (`parseInt` returns an integer or `NaN`; the only arithmetic applied to
  such values is integer `+`/`-`, which propagates `NaN`).
* JS strings are modelled through their character lists (`String.data`);
  the split/trim/slice primitives used by the source are re-implemented
  below with JS semantics (empty parts preserved by `split(',')`,
  regex-run splitting for `split(/[\s;,\n]+/)`, and so on).
* Fallible operations (`NodeOperationError`, pdf-lib assertion failures)
  are modelled with `Except PdfError`.
-/

/-- Errors raised by the embedded operations. `invalidPageNumbers` stands
for the `NodeOperationError` thrown by `validatePageSelection`,
`pageOutOfBounds` for a pdf-lib range assertion failure
(`removePage`/`getPage` with an out-of-range or `NaN` index), and
`insufficientInputs` for the merge arity error. -/
inductive PdfError where
  | invalidPageNumbers
  | pageOutOfBounds
  | insufficientInputs
  deriving DecidableEq, Repr

instance {ε α : Type} [DecidableEq ε] [DecidableEq α] : DecidableEq (Except ε α) := fun a b =>
  match a, b with
  | .ok x, .ok y =>
    if h : x = y then .isTrue (by rw [h]) else .isFalse (by simp [h])
  | .error x, .error y =>
    if h : x = y then .isTrue (by rw [h]) else .isFalse (by simp [h])
  | .ok _, .error _ => .isFalse (by simp)
  | .error _, .ok _ => .isFalse (by simp)

/-- JS whitespace characters relevant to the inputs considered here
(the `\s` class and `String.prototype.trim`). -/
def isWsJS (c : Char) : Bool :=
  c = ' ' || c = '\t' || c = '\n' || c = '\r' || c = '\x0b' || c = '\x0c'

/-- Separator class of the regex `[\s;,\n]+` used by `parsePageRanges`. -/
def isSepJS (c : Char) : Bool :=
  c = ',' || c = ';' || isWsJS c

/-- `String.prototype.trim` on a character list. -/
def trimJS (cs : List Char) : List Char :=
  ((cs.dropWhile isWsJS).reverse.dropWhile isWsJS).reverse

/-- Numeric value of a list of decimal digit characters. -/
def digitsVal (cs : List Char) : Nat :=
  cs.foldl (fun acc c => acc * 10 + (c.toNat - 48)) 0

/-- Digit run at the front of `cs`, interpreted in base 10; `none` when
there is no digit (JS `NaN`). -/
def decDigits (cs : List Char) : Option Int :=
  let ds := cs.takeWhile Char.isDigit
  if ds.isEmpty then none else some (digitsVal ds)

/-- JS `parseInt(s, 10)`: skip leading whitespace, optional sign, then the
longest decimal-digit prefix; `NaN` (`none`) when no digit follows.
`validatePageSelection` calls `parseInt` without a radix argument, which
matches this decimal form on every string except those whose digits start
with `0x`/`0X` (then JS switches to hexadecimal); no theorem below
depends on such an input. -/
def parseIntJS (cs : List Char) : Option Int :=
  match cs.dropWhile isWsJS with
  | '-' :: rest => (decDigits rest).map (fun n => -n)
  | '+' :: rest => decDigits rest
  | rest => decDigits rest

/-- JS `String.prototype.split` with a single-character string separator:
splits at every occurrence, keeping empty parts (`"".split(',') = [""]`). -/
def splitCharAux (sep : Char) : List Char → List Char → List (List Char)
  | [], cur => [cur.reverse]
  | c :: cs, cur =>
    if c = sep then cur.reverse :: splitCharAux sep cs []
    else splitCharAux sep cs (c :: cur)

def splitCharJS (sep : Char) (cs : List Char) : List (List Char) :=
  splitCharAux sep cs []

/-- JS `String.prototype.split(/[\s;,\n]+/)`: splits at every maximal run
of separator characters, keeping the empty boundary parts JS keeps
(`",1"` gives `["", "1"]`, `""` gives `[""]`). The flag records whether
the previous character belonged to a separator run. -/
def splitSepRunsAux : List Char → List Char → Bool → List (List Char)
  | [], cur, _ => [cur.reverse]
  | c :: cs, cur, inRun =>
    if isSepJS c then
      if inRun then splitSepRunsAux cs cur true
      else cur.reverse :: splitSepRunsAux cs [] true
    else
      splitSepRunsAux cs (c :: cur) false

def splitSepRuns (cs : List Char) : List (List Char) :=
  splitSepRunsAux cs [] false

/-- JS `Array.from({length: end - start + 1}, (_, i) => start + i - 1)` for
already-parsed endpoints: `NaN` or a non-positive length yields the empty
array (`ToLength` clamps both to `0`). -/
def rangeTermJS (start? stop? : Option Int) : List (Option Int) :=
  match start?, stop? with
  | some s, some e => (List.range (e - s + 1).toNat).map (fun i => some (s + i - 1))
  | _, _ => []

/-- The term list built by `validatePageSelection` before its bound check:
split on `','`, trim each part, expand `-`-ranges via `rangeTermJS`,
otherwise `parseInt(part) - 1` (possibly `NaN`). Faithful to
`PdfOperations.validatePageSelection` in `PdfTools.node.ts` lines 279-287. -/
def parseSelectionTerms (pages : String) : List (Option Int) :=
  ((splitCharJS ',' pages.data).map (fun p =>
    let trimmed := trimJS p
    if trimmed.contains '-' then
      match splitCharJS '-' trimmed with
      | a :: b :: _ => rangeTermJS (parseIntJS a) (parseIntJS b)
      | _ => []
    else [(parseIntJS trimmed).map (fun n => n - 1)])).flatten

/-- The bound predicate `p < 0 || p >= pageCount` of the source; for `NaN`
both comparisons are false. -/
def outOfRangeJS (p : Option Int) (pageCount : Int) : Bool :=
  match p with
  | none => false
  | some v => decide (v < 0) || decide (pageCount ≤ v)

/-- `PdfOperations.validatePageSelection(pages, pageCount)` from
`PdfTools.node.ts` lines 279-297: build the term list, throw when any
entry fails the bound check, otherwise return the list unchanged
(no deduplication, no sorting, no `"all"` handling). -/
def validatePageSelection (pages : String) (pageCount : Int) :
    Except PdfError (List (Option Int)) :=
  let pageNumbers := parseSelectionTerms pages
  if pageNumbers.any (fun p => outOfRangeJS p pageCount) then
    .error .invalidPageNumbers
  else
    .ok pageNumbers

/-- `[...new Set(pages)].sort((a, b) => a - b)`: the ascending sort of the
distinct elements (the JS `Set` keeps first occurrences, but the subsequent
numeric sort makes the result depend only on the element set). -/
def setSortAsc (l : List Int) : List Int :=
  l.dedup.insertionSort (· ≤ ·)

/-- The range loop of `parsePageRanges`:
`for (let i = start; i <= end && i <= maxPages; i++) pages.push(i - 1)`. -/
def rangeLoopPR (s e maxPages : Int) : List Int :=
  (List.range (min e maxPages - s + 1).toNat).map (fun i => s + i - 1)

/-- `parsePageRanges(input, maxPages)` from the unnamed SplitPdf variant
(`src/unnamed/part_002` lines 5-29): split on runs of `[\s;,\n]`, expand
ranges with the upper bound clamped by `maxPages` (the lower bound is not
checked), keep single terms only when `1 <= p <= maxPages`, drop

unparsable terms, then deduplicate and sort ascending. -/
def parsePageRanges (input : String) (maxPages : Int) : List Int :=
  let pages := ((splitSepRuns input.data).map (fun part =>
    if part.contains '-' then
      match splitCharJS '-' part with
      | a :: b :: _ =>
        match parseIntJS (trimJS a), parseIntJS (trimJS b) with
        | some s, some e => rangeLoopPR s e maxPages
        | _, _ => []
      | _ => []
    else
      match parseIntJS (trimJS part) with
      | some p => if 1 ≤ p ∧ p ≤ maxPages then [p - 1] else []
      | none => [])).flatten
  setSortAsc pages

/-- `parsePageSelection(selection, pageCount)` of the secondary `PdfTools`
class (`PdfTools.node.ts` lines 1570-1590): split on `','`, subtract 1
from each parsed endpoint, enumerate ranges keeping only indices inside
`[0, pageCount)`, keep single indices under the same bound, then
deduplicate and sort ascending. -/
def parsePageSelection (selection : String) (pageCount : Int) : List Int :=
  let pages := ((splitCharJS ',' selection.data).map (fun part =>
    if part.contains '-' then
      match splitCharJS '-' part with
      | a :: b :: _ =>
        match (parseIntJS (trimJS a)).map (fun n => n - 1),
              (parseIntJS (trimJS b)).map (fun n => n - 1) with
        | some s, some e =>
          ((List.range (e - s + 1).toNat).map (fun k => s + (k : Int))).filter
            (fun i => decide (0 ≤ i) && decide (i < pageCount))
        | _, _ => []
      | _ => []
    else
      match (parseIntJS (trimJS part)).map (fun n => n - 1) with
      | some idx => if 0 ≤ idx ∧ idx < pageCount then [idx] else []
      | none => [])).flatten
  setSortAsc pages

/-- Descending order used to model `pagesToDelete.sort((a, b) => b - a)`.
On integer entries this is exactly numeric-descending order; when `NaN` is
present the JS comparator is not consistent and the engine's result is
unspecified, so the model fixes one order (`NaN` first) — every position
for a `NaN` entry leads to the same `removePage` fault below. -/
def optDescLE (a b : Option Int) : Prop :=
  match a, b with
  | some x, some y => y ≤ x
  | none, _ => True
  | some _, none => False

instance : DecidableRel optDescLE := fun a b =>
  match a, b with
  | some x, some y => inferInstanceAs (Decidable (y ≤ x))
  | none, none => .isTrue trivial
  | none, some _ => .isTrue trivial
  | some _, none => .isFalse id

instance : IsTotal (Option Int) optDescLE := by
  constructor
  intro a b
  cases a <;> cases b <;> simp [optDescLE]
  omega

instance : IsTrans (Option Int) optDescLE := by
  constructor
  intro a b c
  cases a <;> cases b <;> cases c <;> simp [optDescLE]
  omega

def sortDescJS (l : List (Option Int)) : List (Option Int) :=
  l.insertionSort optDescLE

/-- pdf-lib `removePage(index)`: asserts that the index is an integer in
`[0, pageCount)` (`NaN` fails the assertion), then removes that page. -/
def removePageJS {α : Type} (doc : List α) (idx : Option Int) :
    Except PdfError (List α) :=
  match idx with
  | some i =>
    if 0 ≤ i ∧ i < (doc.length : Int) then .ok (doc.eraseIdx i.toNat)
    else .error .pageOutOfBounds
  | none => .error .pageOutOfBounds

/-- `PdfOperations.deletePages` (`PdfTools.node.ts` lines 443-449):
validate the selection against the page count, sort descending, remove
each index in that order. The document is its page list. -/
def deletePagesOp {α : Type} (doc : List α) (pages : String) :
    Except PdfError (List α) := do
  let pagesToDelete ← validatePageSelection pages (doc.length : Int)
  (sortDescJS pagesToDelete).foldlM removePageJS doc

/-- Specification of "surviving pages are the unselected original pages in
their original order": keep the page at original position `j` iff `j` is
not selected. `j` is the zero-based original position of the head. -/
def keepUnselectedFrom {α : Type} : List α → Int → List Int → List α
  | [], _, _ => []
  | a :: rest, j, sel =>
    if j ∈ sel then keepUnselectedFrom rest (j + 1) sel
    else a :: keepUnselectedFrom rest (j + 1) sel

def keepUnselected {α : Type} (doc : List α) (sel : List Int) : List α :=
  keepUnselectedFrom doc 0 sel

/-- The rotation update of both `rotatePages` variants:
`(currentRotation + angle) % 360` with the JS `%`, which truncates toward
zero (`Int.tmod`), not a floor modulo. -/
def rotateNew (currentRotation angle : Int) : Int :=
  (currentRotation + angle).tmod 360

/-- `PdfOperations.rotatePages` (`PdfTools.node.ts` lines 488-498) on a
document modelled by its list of page rotations: validate the selection,
then for each index read the current rotation, apply `rotateNew`, and set
it in place. `getPages()[i]` on an out-of-range or `NaN` index yields
`undefined` and the subsequent `getRotation()` call faults. -/
def rotatePagesOp (doc : List Int) (pages : String) (angle : Int) :
    Except PdfError (List Int) := do
  let pagesToRotate ← validatePageSelection pages (doc.length : Int)
  pagesToRotate.foldlM (fun d idx =>
    match idx with
    | some i =>
      if 0 ≤ i ∧ i < (d.length : Int) then
        .ok (d.set i.toNat (rotateNew (d.getD i.toNat 0) angle))
      else .error .pageOutOfBounds
    | none => .error .pageOutOfBounds) doc

/-- `mergePDFs` (`PdfTools.node.ts` lines 562-570): copy all pages of each
input document, in input order, into a fresh document. -/
def mergePDFs {α : Type} (pdfBuffers : List (List α)) : List α :=
  pdfBuffers.flatten

/-- The `Operation.Merge` branch of `PdfTools.execute`
(`PdfTools.node.ts` lines 1044-1065): fewer than 2 inputs raises the
insufficient-inputs `NodeOperationError` before any document is produced;
otherwise the documents are merged. -/
def mergeOperation {α : Type} (pdfBuffers : List (List α)) :
    Except PdfError (List α) :=
  if pdfBuffers.length < 2 then .error .insufficientInputs
  else .ok (mergePDFs pdfBuffers)

/-- Hexadecimal digit as accepted by `parseInt(s, 16)`. -/
def isHexDigitJS (c : Char) : Bool :=
  c.isDigit || ('a' ≤ c && c ≤ 'f') || ('A' ≤ c && c ≤ 'F')

def hexDigitVal (c : Char) : Nat :=
  if c.isDigit then c.toNat - 48
  else if 'a' ≤ c && c ≤ 'f' then c.toNat - 87
  else c.toNat - 55

def hexVal (cs : List Char) : Nat :=
  cs.foldl (fun acc c => acc * 16 + hexDigitVal c) 0

def hexDigits (cs : List Char) : Option Int :=
  let ds := cs.takeWhile isHexDigitJS
  if ds.isEmpty then none else some (hexVal ds)

def parseHexBody (cs : List Char) : Option Int :=
  match cs with
  | '0' :: 'x' :: rest => hexDigits rest
  | '0' :: 'X' :: rest => hexDigits rest
  | rest => hexDigits rest

/-- JS `parseInt(s, 16)`: skip leading whitespace, optional sign, optional
`0x`/`0X` prefix, then the longest hexadecimal-digit prefix; `NaN`
(`none`) when no digit follows. -/
def parseHexJS (cs : List Char) : Option Int :=
  match cs.dropWhile isWsJS with
  | '-' :: rest => (parseHexBody rest).map (fun n => -n)
  | '+' :: rest => parseHexBody rest
  | rest => parseHexBody rest

/-- JS `String.prototype.slice(a, b)` for `0 <= a <= b` (the only uses in
the source are `slice(1,3)`, `slice(3,5)`, `slice(5,7)`). -/
def sliceJS (cs : List Char) (a b : Nat) : List Char :=
  (cs.drop a).take (b - a)

/-- One colour component of the watermark:
`parseInt(color.slice(a, b), 16) / 255`, `NaN` propagating. -/
def colorComponentJS (color : String) (a b : Nat) : Option ℚ :=
  (parseHexJS (sliceJS color.data a b)).map (fun n => (n : ℚ) / 255)

/-- A page as seen by `addWatermark`: its `getSize()` result. -/
structure PageDims where
  width : ℚ
  height : ℚ
  deriving DecidableEq, Repr

/-- The `watermarkOptions` record passed to `addWatermark`. -/
structure WatermarkStyleJS where
  text : String
  fontSize : ℚ
  color : String
  opacity : ℚ
  x : ℚ
  y : ℚ
  deriving DecidableEq, Repr

/-- One `page.drawText(text, {...})` call as issued by `addWatermark`. -/
structure TextDrawCall where
  text : String
  x : ℚ
  y : ℚ
  size : ℚ
  opacity : ℚ
  colorR : Option ℚ
  colorG : Option ℚ
  colorB : Option ℚ
  deriving DecidableEq, Repr

/-- The draw call `addWatermark` issues for one page
(`PdfTools.node.ts` lines 413-426): the text is placed at
`(width / 2, height / 2)`; `watermarkOptions.x` and `watermarkOptions.y`
do not appear in the call. -/
def mkWatermarkDraw (page : PageDims) (text : String)
    (opts : WatermarkStyleJS) : TextDrawCall :=
  { text := text
    x := page.width / 2
    y := page.height / 2
    size := opts.fontSize
    opacity := opts.opacity
    colorR := colorComponentJS opts.color 1 3
    colorG := colorComponentJS opts.color 3 5
    colorB := colorComponentJS opts.color 5 7 }

/-- The `for (const pageIndex of targetPages)` loop of `addWatermark`:
`getPage(pageIndex)` asserts an integer index in `[0, pageCount)` (`NaN`
fails), then one draw call is issued per page in target order. -/
def watermarkLoop (doc : List PageDims) (text : String)
    (opts : WatermarkStyleJS) :
    List (Option Int) → Except PdfError (List TextDrawCall)
  | [] => .ok []
  | idx :: rest =>
    match idx with
    | some i =>
      if h : 0 ≤ i ∧ i.toNat < doc.length then
        (watermarkLoop doc text opts rest).map
          (fun ds => mkWatermarkDraw (doc.get ⟨i.toNat, h.2⟩) text opts :: ds)
      else .error .pageOutOfBounds
    | none => .error .pageOutOfBounds

/-- `PdfOperations.addWatermark` (`PdfTools.node.ts` lines 401-429),
abstracted to the sequence of draw calls it issues: the target list is
`0..pageCount-1` when `pageTarget` is exactly the string `'all'`,
otherwise `validatePageSelection(pageTarget, pageCount)`. -/
def watermarkTargets (doc : List PageDims) (pageTarget : String) :
    Except PdfError (List (Option Int)) :=
  if pageTarget = "all" then
    Except.ok ((List.range doc.length).map (fun i => some (i : Int)))
  else
    validatePageSelection pageTarget (doc.length : Int)

def addWatermarkDraws (doc : List PageDims) (text : String)
    (pageTarget : String) (opts : WatermarkStyleJS) :
    Except PdfError (List TextDrawCall) :=
  match watermarkTargets doc pageTarget with
  | .error e => .error e
  | .ok targetPages => watermarkLoop doc text opts targetPages

/-- Numeric-descending order on `Int`, the restriction of `optDescLE` to
non-`NaN` entries. -/
def intDescLE (a b : Int) : Prop := b ≤ a

instance : DecidableRel intDescLE := fun a b => inferInstanceAs (Decidable (b ≤ a))

instance : IsTotal Int intDescLE := ⟨fun a b => le_total b a⟩

instance : IsTrans Int intDescLE := ⟨fun _ _ _ hab hbc => le_trans hbc hab⟩

/-- A valid `ResolvedPageSet` for page count `n`: every entry is an actual
(zero-based, in-range) page index — in particular not `NaN`. -/
def isValidResolvedSet (l : List (Option Int)) (n : Int) : Prop :=
  ∀ t ∈ l, ∃ v, t = some v ∧ 0 ≤ v ∧ v < n

/-! ### General lemmas -/

lemma rangeTermJS_reversed (s e : Int) (h : e < s) :
    rangeTermJS (some s) (some e) = [] := by
  have h0 : (e - s + 1).toNat = 0 := by omega
  simp [rangeTermJS, h0]

lemma rangeLoopPR_reversed (s e m : Int) (h : e < s) :
    rangeLoopPR s e m = [] := by
  have h0 : (min e m - s + 1).toNat = 0 := by omega
  simp [rangeLoopPR, h0]

lemma keepUnselectedFrom_nil_sel {α : Type} (doc : List α) (j : Int) :
    keepUnselectedFrom doc j [] = doc := by
  induction doc generalizing j with
  | nil => rfl
  | cons a d ih => simp [keepUnselectedFrom, ih]

lemma keepUnselectedFrom_high {α : Type} (doc : List α) (j : Int) (sel : List Int)
    (h : ∀ i ∈ sel, i < j) : keepUnselectedFrom doc j sel = doc := by
  induction doc generalizing j with
  | nil => rfl
  | cons a d ih =>
    have hj : j ∉ sel := fun hm => absurd (h j hm) (lt_irrefl j)
    simp only [keepUnselectedFrom, if_neg hj]
    exact congrArg (a :: ·) (ih (j + 1) (fun i hi => lt_trans (h i hi) (lt_add_one j)))

lemma keepUnselectedFrom_congr {α : Type} (doc : List α) (j : Int) (s1 s2 : List Int)
    (h : ∀ i : Int, i ∈ s1 ↔ i ∈ s2) :
    keepUnselectedFrom doc j s1 = keepUnselectedFrom doc j s2 := by
  induction doc generalizing j with
  | nil => rfl
  | cons a d ih =>
    by_cases hj : j ∈ s1
    · simp only [keepUnselectedFrom, if_pos hj, if_pos ((h j).mp hj)]
      exact ih (j + 1)
    · have hj2 : j ∉ s2 := fun hm => hj ((h j).mpr hm)
      simp only [keepUnselectedFrom, if_neg hj, if_neg hj2]
      exact congrArg (a :: ·) (ih (j + 1))

lemma keepUnselectedFrom_erase {α : Type} (doc : List α) (j m : Int) (rest : List Int)
    (hrest : ∀ i ∈ rest, i < m) (hup : m < j + doc.length) (hlow : j ≤ m) :
    keepUnselectedFrom doc j (m :: rest) =
      keepUnselectedFrom (doc.eraseIdx (m - j).toNat) j rest := by
  induction doc generalizing j with
  | nil => simp only [List.length_nil] at hup; omega
  | cons a d ih =>
    by_cases hjm : j = m
    · have hmem : j ∈ m :: rest := by rw [hjm]; exact List.mem_cons_self _ _
      have h0 : (m - j).toNat = 0 := by omega
      simp only [keepUnselectedFrom, if_pos hmem, h0, List.eraseIdx]
      rw [keepUnselectedFrom_high d (j + 1) (m :: rest)
          (fun i hi => by rcases List.mem_cons.mp hi with h | h; omega; exact by have := hrest i h; omega),
        keepUnselectedFrom_high d j rest (fun i hi => by have := hrest i hi; omega)]
    · have hlt : j < m := lt_of_le_of_ne hlow hjm
      have hsucc : (m - j).toNat = (m - (j + 1)).toNat + 1 := by omega
      have hcnd : (j ∈ m :: rest) ↔ j ∈ rest := by
        simp only [List.mem_cons]
        exact ⟨fun h => h.resolve_left hjm, Or.inr⟩
      have hrec := ih (j + 1) (by simp only [List.length_cons] at hup; omega) (by omega)
      by_cases hj : j ∈ rest
      · simp only [keepUnselectedFrom, if_pos (hcnd.mpr hj), if_pos hj, hsucc, List.eraseIdx]
        exact hrec
      · simp only [keepUnselectedFrom, if_neg (fun h => hj (hcnd.mp h)), if_neg hj, hsucc,
          List.eraseIdx]
        exact congrArg (a :: ·) hrec

lemma validatePageSelection_ok_bounds (pages : String) (n : Int)
    (l : List (Option Int)) (h : validatePageSelection pages n = .ok l) :
    l = parseSelectionTerms pages ∧ ∀ v : Int, some v ∈ l → 0 ≤ v ∧ v < n := by
  unfold validatePageSelection at h
  by_cases hc : (parseSelectionTerms pages).any (fun p => outOfRangeJS p n)
  · rw [if_pos hc] at h
    exact absurd h (by simp)
  · rw [if_neg hc] at h
    have hl : l = parseSelectionTerms pages := by
      injection h with h
      exact h.symm
    refine ⟨hl, fun v hv => ?_⟩
    rw [hl] at hv
    by_contra hbad
    apply hc
    rw [List.any_eq_true]
    refine ⟨some v, hv, ?_⟩
    simp only [outOfRangeJS, Bool.or_eq_true, decide_eq_true_eq]
    omega

lemma orderedInsert_map_some (x : Int) (l : List Int) :
    List.orderedInsert optDescLE (some x) (l.map some) =
      (List.orderedInsert intDescLE x l).map some := by
  induction l with
  | nil => rfl
  | cons y ys ih =>
    by_cases h : y ≤ x
    · rw [List.map_cons, List.orderedInsert, List.orderedInsert,
        if_pos (show optDescLE (some x) (some y) from h), if_pos (show intDescLE x y from h)]
      rfl
    · rw [List.map_cons, List.orderedInsert, List.orderedInsert,
        if_neg (show ¬ optDescLE (some x) (some y) from h), if_neg (show ¬ intDescLE x y from h),
        List.map_cons, ih]

lemma sortDescJS_map_some (l : List Int) :
    sortDescJS (l.map some) = (l.insertionSort intDescLE).map some := by
  induction l with
  | nil => rfl
  | cons x xs ih =>
    rw [List.map_cons]
    show List.orderedInsert optDescLE (some x) (List.insertionSort optDescLE (xs.map some)) = _
    rw [show List.insertionSort optDescLE (xs.map some) = sortDescJS (xs.map some) from rfl, ih,
      orderedInsert_map_some]
    rfl

lemma foldlM_removePage_desc {α : Type} :
    ∀ (is : List Int) (doc : List α),
      is.Pairwise (fun a b => b < a) →
      (∀ i ∈ is, 0 ≤ i ∧ i < (doc.length : Int)) →
      (is.map some).foldlM removePageJS doc = .ok (keepUnselected doc is)
  | [], doc, _, _ => by
    simp only [List.map_nil, List.foldlM_nil, keepUnselected, keepUnselectedFrom_nil_sel]
    rfl
  | m :: rest, doc, hpair, hrange => by
    have hm := hrange m (List.mem_cons_self _ _)
    have hmlen : m.toNat < doc.length := by omega
    have hrm : removePageJS doc (some m) = .ok (doc.eraseIdx m.toNat) :=
      if_pos ⟨hm.1, hm.2⟩
    rw [List.map_cons, List.foldlM_cons, hrm]
    show (rest.map some).foldlM removePageJS (doc.eraseIdx m.toNat) = _
    rw [foldlM_removePage_desc rest (doc.eraseIdx m.toNat) hpair.of_cons ?hr]
    case hr =>
      intro i hi
      have hi2 := hrange i (List.mem_cons_of_mem _ hi)
      have hilt : i < m := List.rel_of_pairwise_cons hpair hi
      have hlen : (doc.eraseIdx m.toNat).length = doc.length - 1 :=
        List.length_eraseIdx_of_lt hmlen
      rw [hlen]
      omega
    have hkeep : keepUnselectedFrom doc 0 (m :: rest) =
        keepUnselectedFrom (doc.eraseIdx (m - 0).toNat) 0 rest :=
      keepUnselectedFrom_erase doc 0 m rest
        (fun i hi => List.rel_of_pairwise_cons hpair hi)
        (by omega) hm.1
    rw [keepUnselected, keepUnselected, hkeep]
    norm_num

lemma mkWatermarkDraw_xy (p : PageDims) (t : String) (o : WatermarkStyleJS) (a b : ℚ) :
    mkWatermarkDraw p t { o with x := a, y := b } = mkWatermarkDraw p t o := rfl

lemma watermarkLoop_xy (doc : List PageDims) (text : String) (opts : WatermarkStyleJS)
    (a b : ℚ) (l : List (Option Int)) :
    watermarkLoop doc text { opts with x := a, y := b } l =
      watermarkLoop doc text opts l := by
  induction l with
  | nil => rfl
  | cons idx rest ih =>
    cases idx with
    | none => rfl
    | some i =>
      rw [watermarkLoop, watermarkLoop]
      by_cases h : 0 ≤ i ∧ i.toNat < doc.length
      · rw [dif_pos h, dif_pos h, ih, mkWatermarkDraw_xy]
      · rw [dif_neg h, dif_neg h]

lemma watermarkLoop_centered (doc : List PageDims) (text : String)
    (opts : WatermarkStyleJS) :
    ∀ (l : List (Option Int)) (calls : List TextDrawCall),
      watermarkLoop doc text opts l = .ok calls →
      ∀ c ∈ calls, ∃ i : Fin doc.length, c = mkWatermarkDraw (doc.get i) text opts := by
  intro l
  induction l with
  | nil =>
    intro calls h c hc
    have : calls = [] := by
      have h0 : Except.ok (ε := PdfError) ([] : List TextDrawCall) = .ok calls := h
      injection h0 with h0
      exact h0.symm
    subst this
    exact absurd hc (List.not_mem_nil c)
  | cons idx rest ih =>
    intro calls h c hc
    cases idx with
    | none => exact absurd h (by simp [watermarkLoop])
    | some i =>
      rw [watermarkLoop] at h
      by_cases hb : 0 ≤ i ∧ i.toNat < doc.length
      · rw [dif_pos hb] at h
        cases hr : watermarkLoop doc text opts rest with
        | error e => rw [hr] at h; exact absurd h (by simp [Except.map])
        | ok ds =>
          rw [hr] at h
          have hcalls : calls = mkWatermarkDraw (doc.get ⟨i.toNat, hb.2⟩) text opts :: ds := by
            simp only [Except.map] at h
            injection h with h
            exact h.symm
          subst hcalls
          rcases List.mem_cons.mp hc with hhd | htl
          · exact ⟨⟨i.toNat, hb.2⟩, hhd⟩
          · exact ih ds hr c htl
      · rw [dif_neg hb] at h
        exact absurd h (by simp)

/-! ### Claim theorems -/

/-- **C1.** The claim says resolving the expression `"all"` (trimmed,
case-insensitive) against page count `n` yields `[0, .., n-1]` for every
operation that takes a page target. The code's own documentation for
`validatePageSelection` lists `"all"` as a supported format, but the
implementation has no `"all"` branch: the term parses to `NaN`, which
slips through the bound check, so the selector returns `[NaN]` instead of
`[0, 1, 2]` at page count `3` (operations then fault at
`getPage`/`removePage(NaN)`). It is not trim-insensitive (`" all "`
behaves the same way), and even the watermark operation's special case
accepts only the exact string `'all'`, so `"ALL"` makes it fault. -/
theorem c1_all_resolution_bug :
    validatePageSelection "all" 3 = .ok [none] ∧
    (Except.ok [Option.none] : Except PdfError (List (Option Int))) ≠
      .ok [some 0, some 1, some 2] ∧
    validatePageSelection " all " 3 = .ok [none] ∧
    addWatermarkDraws [⟨10, 20⟩, ⟨30, 40⟩, ⟨50, 60⟩] "W" "ALL"
      ⟨"", 50, "#808080", 1, 0, 0⟩ = .error .pageOutOfBounds :=
  ⟨by decide, by decide, by decide, by decide⟩

/-- **C2 (counterexample).** The claim says the delete, extract, split,
rotate, add-image and watermark operations silently discard out-of-range
terms and never raise because of them. In the main variant all of these
resolve through `validatePageSelection`, which raises the
invalid-page-numbers error on the out-of-range term `"7"` against page
count `5` (shown for the selector itself and for the delete, rotate and
watermark operations). -/
theorem c2_counterexample :
    validatePageSelection "7" 5 = .error .invalidPageNumbers ∧
    deletePagesOp ["a", "b", "c", "d", "e"] "7" = .error .invalidPageNumbers ∧
    rotatePagesOp [0, 0, 0, 0, 0] "7" 90 = .error .invalidPageNumbers ∧
    addWatermarkDraws [⟨10, 20⟩] "W" "7" ⟨"", 50, "#808080", 1, 0, 0⟩ =
      .error .invalidPageNumbers :=
  ⟨by decide, by decide, by decide, by decide⟩

/-- **C2 (amended).** In the main `PdfTools` variant, page resolution for
these operations is strict, not lenient: `validatePageSelection` raises
the invalid-page-numbers error exactly when some parsed term has an
in-bounds-violating numeric value, and otherwise returns every parsed
term undropped. Lenient silent-drop exists only in the other variants:
`parsePageRanges` (SplitPdf) and `parsePageSelection` (secondary class)
drop the out-of-range single term `"7"` at page count `5` and clamp the
range `"1-7"` to the valid indices — though `parsePageRanges` clamps only
the upper bound of a range, so `"0-2"` still leaks the invalid index
`-1`. -/
theorem c2_amended :
    (∀ (pages : String) (n : Int),
      (validatePageSelection pages n = .error .invalidPageNumbers ↔
        (parseSelectionTerms pages).any (fun t => outOfRangeJS t n) = true) ∧
      ((parseSelectionTerms pages).any (fun t => outOfRangeJS t n) = false →
        validatePageSelection pages n = .ok (parseSelectionTerms pages))) ∧
    parsePageRanges "7" 5 = [] ∧ parsePageSelection "7" 5 = [] ∧
    parsePageRanges "1-7" 5 = [0, 1, 2, 3, 4] ∧
    parsePageSelection "1-7" 5 = [0, 1, 2, 3, 4] ∧
    parsePageRanges "0-2" 5 = [-1, 0, 1] := by
  refine ⟨fun pages n => ?_, by decide, by decide, by decide, by decide, by decide⟩
  unfold validatePageSelection
  by_cases hc : (parseSelectionTerms pages).any (fun t => outOfRangeJS t n)
  · rw [if_pos hc]
    exact ⟨iff_of_true rfl hc, fun hf => absurd hc (by simp [hf])⟩
  · rw [if_neg hc]
    exact ⟨iff_of_false (by simp) (by simpa using hc), fun _ => rfl⟩

/-- **C2 (witness for the amended theorem).** -/
theorem c2_amended_witness :
    validatePageSelection "1,2" 5 = .ok (parseSelectionTerms "1,2") :=
  (c2_amended.1 "1,2" 5).2 (by decide)

/-- **C3 (counterexample).** The claim quantifies over every document and
selection, but when the resolved target list repeats an index, descending
removal deletes extra pages: resolving `"2,2"` against a 3-page document
yields `[1, 1]`, and removing index 1 twice deletes original pages 2
*and* 3, so only `["a"]` survives while the unselected original pages
were `["a", "c"]`. -/
theorem c3_counterexample :
    validatePageSelection "2,2" 3 = .ok [some 1, some 1] ∧
    deletePagesOp ["a", "b", "c"] "2,2" = .ok ["a"] ∧
    keepUnselected ["a", "b", "c"] [1] = ["a", "c"] ∧
    (["a"] : List String) ≠ ["a", "c"] :=
  ⟨by decide, by decide, by decide, by decide⟩

/-- **C3 (amended).** Delete removes the resolved indices in descending
order via `removePage`, and — provided the resolved index list is
duplicate-free — the surviving pages are exactly the unselected original
pages in their original order (e.g. deleting `"2,4"` from a 5-page
document leaves the pages corresponding to original 1, 3, 5). -/
theorem c3_amended {α : Type} (doc : List α) (pages : String) (is : List Int)
    (hres : validatePageSelection pages (doc.length : Int) = .ok (is.map some))
    (hnd : is.Nodup) :
    deletePagesOp doc pages = .ok (keepUnselected doc is) := by
  have hbounds := (validatePageSelection_ok_bounds _ _ _ hres).2
  unfold deletePagesOp
  rw [hres]
  show (sortDescJS (is.map some)).foldlM removePageJS doc = _
  rw [sortDescJS_map_some]
  have hperm : List.Perm (is.insertionSort intDescLE) is := List.perm_insertionSort _ _
  have hsorted : (is.insertionSort intDescLE).Pairwise intDescLE :=
    List.sorted_insertionSort intDescLE is
  have hnd2 : (is.insertionSort intDescLE).Nodup := hperm.nodup_iff.mpr hnd
  have hpair : (is.insertionSort intDescLE).Pairwise (fun a b : Int => b < a) :=
    (hsorted.and hnd2).imp (fun h => lt_of_le_of_ne h.1 (Ne.symm h.2))
  have hrange : ∀ i ∈ is.insertionSort intDescLE, 0 ≤ i ∧ i < (doc.length : Int) :=
    fun i hi => hbounds i (List.mem_map_of_mem some (hperm.mem_iff.mp hi))
  rw [foldlM_removePage_desc _ doc hpair hrange]
  show Except.ok (keepUnselectedFrom doc 0 _) = Except.ok (keepUnselectedFrom doc 0 is)
  exact congrArg _
    (keepUnselectedFrom_congr doc 0 _ _ (fun i => hperm.mem_iff))

/-- **C3 (witness for the amended theorem).** -/
theorem c3_amended_witness :
    deletePagesOp ["a", "b", "c", "d", "e"] "2,4" = .ok ["a", "c", "e"] := by
  have h := c3_amended ["a", "b", "c", "d", "e"] "2,4" [1, 3] (by decide) (by decide)
  exact h.trans (by decide)

/-- **C4 (counterexample).** The claim says every page-targeting operation
except reorder resolves `"1,1,2"` against page count 5 to the
deduplicated, ascending `[0, 1]`. But the main variant's
`validatePageSelection` — the resolver used by its delete, extract,
split, rotate, add-image and watermark operations — neither deduplicates
nor sorts: it returns `[0, 0, 1]`. -/
theorem c4_counterexample :
    validatePageSelection "1,1,2" 5 = .ok [some 0, some 0, some 1] ∧
    ([some 0, some 0, some 1] : List (Option Int)) ≠ [some 0, some 1] :=
  ⟨by decide, by decide⟩

/-- **C4 (amended).** Deduplicate-and-sort happens only in the SplitPdf
variant's `parsePageRanges` and the secondary class's
`parsePageSelection`, which both resolve `"1,1,2"` at page count 5 to
`[0, 1]`; the main variant's `validatePageSelection` preserves the parsed
term order with duplicates (`[0, 0, 1]`) for every operation, reorder
included. The shared `setSortAsc` step always yields an ascending,
duplicate-free list with the same members. -/
theorem c4_amended :
    validatePageSelection "1,1,2" 5 = .ok [some 0, some 0, some 1] ∧
    parsePageRanges "1,1,2" 5 = [0, 1] ∧
    parsePageSelection "1,1,2" 5 = [0, 1] ∧
    (∀ l : List Int, (setSortAsc l).Sorted (· ≤ ·) ∧ (setSortAsc l).Nodup ∧
      ∀ x : Int, x ∈ setSortAsc l ↔ x ∈ l) := by
  refine ⟨by decide, by decide, by decide, fun l => ⟨?_, ?_, fun x => ?_⟩⟩
  · exact List.sorted_insertionSort _ _
  · exact (List.perm_insertionSort _ _).nodup_iff.mpr (List.nodup_dedup l)
  · exact ((List.perm_insertionSort _ _).mem_iff).trans List.mem_dedup

/-- **C5 (counterexample).** The claim says the new rotation always lands
in `[0, 360)`, via a floor modulo, even for negative deltas. The code
uses the JS `%`, a truncating modulo: rotating a page at 0° by −90°
stores −90, which is outside `[0, 360)`. -/
theorem c5_counterexample :
    rotatePagesOp [0] "1" (-90) = .ok [-90] ∧
    ¬ (0 ≤ (-90 : Int) ∧ (-90 : Int) < 360) :=
  ⟨by decide, by decide⟩

/-- **C5 (amended).** The new rotation is `(current + angle)` reduced by
the truncating modulo 360. Whenever `current + angle` is nonnegative — in
particular for the nonnegative stored rotations and the positive UI
angles 90/180/270 — this agrees with the floor modulo and lies in
`[0, 360)`, so 270° + 180° gives 90°, never 450°; a negative sum instead
produces the negative truncated remainder. -/
theorem c5_amended :
    (∀ cur angle : Int, 0 ≤ cur + angle →
      rotateNew cur angle = (cur + angle) % 360 ∧
      0 ≤ rotateNew cur angle ∧ rotateNew cur angle < 360) ∧
    rotateNew 270 180 = 90 ∧
    rotatePagesOp [0, 270] "2" 180 = .ok [0, 90] := by
  refine ⟨fun cur angle h => ?_, by decide, by decide⟩
  have he : (cur + angle).tmod 360 = (cur + angle) % 360 :=
    Int.tmod_eq_emod h (by norm_num)
  exact ⟨he, by rw [rotateNew, he]; exact Int.emod_nonneg _ (by norm_num),
    by rw [rotateNew, he]; exact Int.emod_lt_of_pos _ (by norm_num)⟩

/-- **C5 (witness for the amended theorem).** -/
theorem c5_amended_witness :
    0 ≤ (270 : Int) + 180 ∧ rotateNew 270 180 = (270 + 180) % 360 :=
  ⟨by decide, (c5_amended.1 270 180 (by decide)).1⟩

/-- **C6.** A reversed range term yields nothing and is never
auto-swapped: for every page count `n ≥ 2` the expression `"2-1"`
resolves to the empty sequence in all three resolvers, and in general a
range term with `start > end` contributes no indices (shown for the
range-expansion step of `validatePageSelection` and of
`parsePageRanges`). -/
theorem c6_reversed_range :
    (∀ n : Int, 2 ≤ n →
      validatePageSelection "2-1" n = .ok [] ∧
      parsePageRanges "2-1" n = [] ∧
      parsePageSelection "2-1" n = []) ∧
    (∀ s e m : Int, e < s →
      rangeTermJS (some s) (some e) = [] ∧ rangeLoopPR s e m = []) := by
  constructor
  · intro n _
    refine ⟨?_, ?_, rfl⟩
    · have ht : parseSelectionTerms "2-1" = [] := by decide
      unfold validatePageSelection
      rw [ht]
      rfl
    · show setSortAsc (rangeLoopPR 2 1 n ++ []) = []
      rw [rangeLoopPR_reversed 2 1 n (by norm_num)]
      rfl
  · exact fun s e m h => ⟨rangeTermJS_reversed s e h, rangeLoopPR_reversed s e m h⟩

/-- **C6 (witness).** -/
theorem c6_reversed_range_witness :
    validatePageSelection "2-1" 5 = .ok [] ∧ rangeTermJS (some 2) (some 1) = [] :=
  ⟨(c6_reversed_range.1 5 (by decide)).1, (c6_reversed_range.2 2 1 0 (by decide)).1⟩

/-- **C7 (counterexample).** The claim says resolving the empty
expression returns the empty sequence. `validatePageSelection` raises no
error, but it returns `[NaN]` (JS `"".split(',')` is `[""]`, whose lone
term parses to `NaN` and passes the bound check), not `[]`. -/
theorem c7_counterexample :
    validatePageSelection "" 5 = .ok [none] ∧
    (Except.ok [Option.none] : Except PdfError (List (Option Int))) ≠ .ok [] :=
  ⟨by decide, by decide⟩

/-- **C7 (amended).** For every page count, resolving `""` raises no
error in any resolver; `parsePageRanges` and `parsePageSelection` return
the empty sequence, while `validatePageSelection` instead returns the
single-element list `[NaN]`. -/
theorem c7_amended :
    ∀ n : Int, parsePageRanges "" n = [] ∧ parsePageSelection "" n = [] ∧
      validatePageSelection "" n = .ok [none] :=
  fun _ => ⟨rfl, rfl, rfl⟩

/-- **C8.** Merge requires at least two input documents: with fewer than
2 inputs the operation fails with the insufficient-inputs error and
produces no output document, and with 2 or more inputs no such error is
raised — the result is the concatenation of the inputs' pages in input
order. -/
theorem c8_merge_arity {α : Type} (pdfBuffers : List (List α)) :
    (mergeOperation pdfBuffers = .error .insufficientInputs ↔
      pdfBuffers.length < 2) ∧
    (2 ≤ pdfBuffers.length → mergeOperation pdfBuffers = .ok pdfBuffers.flatten) := by
  unfold mergeOperation
  by_cases h : pdfBuffers.length < 2
  · rw [if_pos h]
    exact ⟨iff_of_true rfl h, fun h2 => absurd h (by omega)⟩
  · rw [if_neg h]
    exact ⟨iff_of_false (by simp) h, fun _ => rfl⟩

/-- **C8 (witness).** -/
theorem c8_merge_arity_witness :
    mergeOperation [[1, 2], [3, 4, 5]] = .ok [1, 2, 3, 4, 5] ∧
    mergeOperation [[1, 2]] = .error .insufficientInputs :=
  ⟨((c8_merge_arity [[1, 2], [3, 4, 5]]).2 (by decide)).trans (by decide),
   (c8_merge_arity [[1, 2]]).1.mpr (by decide)⟩

/-- **C10.** Terms that do not parse as an integer (the literal `"all"`,
an empty term) are neither rejected nor discarded by
`validatePageSelection`: `parseInt` yields `NaN`, `NaN` fails both bound
comparisons, and the returned list contains `NaN` — so for some inputs
the result is not a valid `ResolvedPageSet`. -/
theorem c10_nan_passthrough :
    validatePageSelection "all" 3 = .ok [none] ∧
    validatePageSelection "" 3 = .ok [none] ∧
    ¬ isValidResolvedSet [none] 3 := by
  refine ⟨by decide, by decide, fun h => ?_⟩
  obtain ⟨v, hv, _⟩ := h none (List.mem_singleton.mpr rfl)
  exact Option.noConfusion hv

/-- **C9.** In the main `PdfTools` variant, `addWatermark` draws the
watermark text at the page's geometric center `(width/2, height/2)` on
every selected page and ignores the caller-supplied
`watermarkOptions.x`/`watermarkOptions.y`: for every input document and
every selection, changing `x` and `y` leaves the issued draw calls
unchanged, and every issued draw call is centered on its page. -/
theorem c9_watermark_center (doc : List PageDims) (text pageTarget : String)
    (opts : WatermarkStyleJS) (a b : ℚ) (calls : List TextDrawCall) :
    addWatermarkDraws doc text pageTarget { opts with x := a, y := b } =
      addWatermarkDraws doc text pageTarget opts ∧
    (addWatermarkDraws doc text pageTarget opts = .ok calls →
      ∀ c ∈ calls, ∃ i : Fin doc.length,
        c.x = (doc.get i).width / 2 ∧ c.y = (doc.get i).height / 2) := by
  constructor
  · unfold addWatermarkDraws
    cases htgt : watermarkTargets doc pageTarget with
    | error e => rfl
    | ok targets => exact watermarkLoop_xy doc text opts a b targets
  · intro h c hc
    unfold addWatermarkDraws at h
    cases htgt : watermarkTargets doc pageTarget with
    | error e =>
      rw [htgt] at h
      exact Except.noConfusion h
    | ok targets =>
      rw [htgt] at h
      obtain ⟨i, hi⟩ := watermarkLoop_centered doc text opts targets calls h c hc
      exact ⟨i, by rw [hi]; exact ⟨rfl, rfl⟩⟩

/-- **C9 (witness).** -/
theorem c9_watermark_center_witness :
    (addWatermarkDraws [⟨10, 20⟩] "W" "1"
        { text := "T", fontSize := 50, color := "#808080", opacity := 1, x := 3, y := 4 } =
      addWatermarkDraws [⟨10, 20⟩] "W" "1"
        { text := "T", fontSize := 50, color := "#808080", opacity := 1, x := 0, y := 0 }) ∧
    ∀ c ∈ [mkWatermarkDraw ⟨10, 20⟩ "W"
        { text := "T", fontSize := 50, color := "#808080", opacity := 1, x := 0, y := 0 }],
      ∃ i : Fin ([⟨10, 20⟩] : List PageDims).length,
        c.x = (([⟨10, 20⟩] : List PageDims).get i).width / 2 ∧
        c.y = (([⟨10, 20⟩] : List PageDims).get i).height / 2 :=
  ⟨(c9_watermark_center [⟨10, 20⟩] "W" "1"
      { text := "T", fontSize := 50, color := "#808080", opacity := 1, x := 0, y := 0 } 3 4
      []).1,
   (c9_watermark_center [⟨10, 20⟩] "W" "1"
      { text := "T", fontSize := 50, color := "#808080", opacity := 1, x := 0, y := 0 } 0 0
      [mkWatermarkDraw ⟨10, 20⟩ "W"
        { text := "T", fontSize := 50, color := "#808080", opacity := 1, x := 0, y := 0 }]).2
     (by rfl)⟩
